import Mathlib

/-!
Verification of the IPMIrage provisioning tool (src/IPMIrage.py) against its
natural-language specification.

The program is a single-host sequential provisioning utility.  Its pure core
(hardware-address normalization, CSV row validation, lease-file scanning) is
embedded as executable Lean functions over `List Char`, translated from the
Python source.  The effectful boundary (the lease file on disk, the external
configuration script, `chmod`, the network commands) is modelled by oracle
records (`World`, `SetupWorld`) whose fields give the outcomes of those
external calls, and the orchestrating `main` loop is embedded as a function
producing an event trace and a process exit code.

Python standard-library calls used by the source are modelled over ASCII
character data:
* `str.replace`/`str.upper`/`str.lower`/`str.split` are modelled on ASCII
  characters (the mapping files and lease files the tool consumes are ASCII).
* `int(s, 16)` is modelled by `pyIntParseHex` below, including Python's
  acceptance of surrounding whitespace, a leading sign, a `0x`/`0X` prefix
  and single underscores between digits.
* `ipaddress.ip_address` and `ipaddress.IPv4Network` are modelled by
  `validate_ip_address` / `valid_netmask`, following the CPython parsing
  algorithms (strict octets without leading zeros, hextet grammar with a
  single `::`, embedded IPv4 suffix, optional zone suffix after a percent
  sign, and netmask/hostmask/prefix-length forms).
-/

namespace IPMIrage

/-- Character strings, modelled as lists of characters. -/
abbrev Str := List Char

/-- The hexadecimal digit characters, exactly Python's
`0123456789abcdefABCDEF`. -/
def isHexDigitChar (c : Char) : Bool :=
  c = '0' || c = '1' || c = '2' || c = '3' || c = '4' || c = '5' || c = '6' ||
  c = '7' || c = '8' || c = '9' ||
  c = 'a' || c = 'b' || c = 'c' || c = 'd' || c = 'e' || c = 'f' ||
  c = 'A' || c = 'B' || c = 'C' || c = 'D' || c = 'E' || c = 'F'

/-- ASCII decimal digit characters. -/
def isAsciiDigit (c : Char) : Bool :=
  c = '0' || c = '1' || c = '2' || c = '3' || c = '4' ||
  c = '5' || c = '6' || c = '7' || c = '8' || c = '9'

/-- ASCII whitespace characters (space, tab, newline, carriage return,
vertical tab, form feed), as recognized by Python's `str.split()` and
`str.strip()` on ASCII data. -/
def isPyWs (c : Char) : Bool :=
  c = ' ' || c = '\t' || c = '\n' || c = '\r' || c = '\x0b' || c = '\x0c'

/-- ASCII uppercasing of one character, the action of Python's `str.upper`
on ASCII data. -/
def pyUpperChar (c : Char) : Char :=
  match c with
  | 'a' => 'A' | 'b' => 'B' | 'c' => 'C' | 'd' => 'D' | 'e' => 'E'
  | 'f' => 'F' | 'g' => 'G' | 'h' => 'H' | 'i' => 'I' | 'j' => 'J'
  | 'k' => 'K' | 'l' => 'L' | 'm' => 'M' | 'n' => 'N' | 'o' => 'O'
  | 'p' => 'P' | 'q' => 'Q' | 'r' => 'R' | 's' => 'S' | 't' => 'T'
  | 'u' => 'U' | 'v' => 'V' | 'w' => 'W' | 'x' => 'X' | 'y' => 'Y'
  | 'z' => 'Z'
  | other => other

/-- ASCII lowercasing of one character, the action of Python's `str.lower`
on ASCII data. -/
def pyLowerChar (c : Char) : Char :=
  match c with
  | 'A' => 'a' | 'B' => 'b' | 'C' => 'c' | 'D' => 'd' | 'E' => 'e'
  | 'F' => 'f' | 'G' => 'g' | 'H' => 'h' | 'I' => 'i' | 'J' => 'j'
  | 'K' => 'k' | 'L' => 'l' | 'M' => 'm' | 'N' => 'n' | 'O' => 'o'
  | 'P' => 'p' | 'Q' => 'q' | 'R' => 'r' | 'S' => 's' | 'T' => 't'
  | 'U' => 'u' | 'V' => 'v' | 'W' => 'w' | 'X' => 'x' | 'Y' => 'y'
  | 'Z' => 'z'
  | other => other

/-- Lowercase a whole string, Python's `str.lower` on ASCII data. -/
def lowerL (s : Str) : Str := s.map pyLowerChar

/-- The separator characters removed by `format_mac_address`. -/
def isSepChar (c : Char) : Bool :=
  c = ':' || c = '-' || c = '.' || c = ' '

/-- Removal of all separator occurrences, the composition
`.replace(':', '').replace('-', '').replace('.', '').replace(' ', '')`
from `format_mac_address` (replacing a character by the empty string
deletes each of its occurrences, so the chain deletes every occurrence of
the four characters). -/
def stripSeparators (s : Str) : Str :=
  s.filter (fun c => !isSepChar c)

/-- Strip leading and trailing ASCII whitespace, performed by Python's
`int` on its string argument. -/
def stripWs (s : Str) : Str :=
  ((s.dropWhile isPyWs).reverse.dropWhile isPyWs).reverse

/-- After the first digit of an `int(s, 16)` literal: a sequence of hex
digits where a single underscore may separate two digits. -/
def hexDigitsTail : Str → Bool
  | [] => true
  | c :: rest =>
    if c = '_' then
      match rest with
      | [] => false
      | d :: rest2 => isHexDigitChar d && hexDigitsTail rest2
    else isHexDigitChar c && hexDigitsTail rest

/-- A nonempty run of hex digits with single underscores permitted between
digits (the digit part of a Python base-16 integer literal). -/
def hexDigits : Str → Bool
  | [] => false
  | c :: rest => isHexDigitChar c && hexDigitsTail rest

/-- The digit part of `int(s, 16)` after a `0x`/`0X` prefix: one optional
underscore, then digits. -/
def hexAfterMarker : Str → Bool
  | '_' :: rest => hexDigits rest
  | rest => hexDigits rest

/-- The body of an `int(s, 16)` literal after sign removal: an optional
`0x`/`0X` prefix followed by digits. -/
def pyIntHexBody (s : Str) : Bool :=
  match s with
  | c0 :: c1 :: rest =>
    if c0 = '0' ∧ (c1 = 'x' ∨ c1 = 'X') then hexAfterMarker rest
    else hexDigits s
  | _ => hexDigits s

/-- Whether Python's `int(s, 16)` succeeds on `s`: optional surrounding
whitespace, an optional sign, an optional `0x`/`0X` prefix, then hex digits
with single underscores permitted between digits.  This is the check the
source performs with `int(mac, 16)` inside `format_mac_address`. -/
def pyIntParseHex (s : Str) : Bool :=
  match stripWs s with
  | [] => false
  | c :: rest =>
    if c = '+' ∨ c = '-' then pyIntHexBody rest
    else pyIntHexBody (c :: rest)

/-- Join consecutive pairs of characters with a colon:
`':'.join(mac[i:i+2] for i in range(0, 12, 2))` for the 12-character case
(the pattern consumes two characters per group and inserts a colon before
each following group). -/
def colonJoinPairs : Str → Str
  | a :: b :: c :: rest => a :: b :: ':' :: colonJoinPairs (c :: rest)
  | s => s

/-- Embedding of `format_mac_address` from the source: remove `:`, `-`, `.` and space
separators, uppercase, require exactly 12 remaining characters, require
`int(mac, 16)` to succeed, and join the six pairs with colons; otherwise
return `none` (Python `None`). -/
def format_mac_address (mac_address : Str) : Option Str :=
  let mac := (stripSeparators mac_address).map pyUpperChar
  if mac.length ≠ 12 then none
  else if pyIntParseHex mac then some (colonJoinPairs mac)
  else none

example : format_mac_address ("AA-BB-CC-DD-EE-FF".data)
    = some ("AA:BB:CC:DD:EE:FF".data) := by decide

example : format_mac_address ("12:34:56:78:9A".data) = none := by decide

example : format_mac_address ("+11223344556".data)
    = some ("+1:12:23:34:45:56".data) := by decide

/-! ### IP address validation (`ipaddress.ip_address`, `ipaddress.IPv4Network`) -/

/-- Split a string at every occurrence of one separator character, keeping
empty pieces: Python's `str.split(sep)`. -/
def splitOnChar (sep : Char) (s : Str) : List Str :=
  s.foldr
    (fun c acc =>
      if c = sep then [] :: acc
      else
        match acc with
        | t :: ts => (c :: t) :: ts
        | [] => [[c]])
    [[]]

/-- Numeric value of an ASCII decimal digit string. -/
def decimalVal (s : Str) : Nat :=
  s.foldl (fun n c => n * 10 + (c.toNat - 48)) 0

/-- Value of one dotted-quad octet per CPython
`IPv4Address._parse_octet`: nonempty, ASCII digits only, at most 3
characters, no leading zero (unless the octet is exactly `0`), value at
most 255. -/
def octet_value (s : Str) : Option Nat :=
  if s.isEmpty then none
  else if !s.all isAsciiDigit then none
  else if 3 < s.length then none
  else if s.length ≠ 1 && s.headD ' ' = '0' then none
  else if 255 < decimalVal s then none
  else some (decimalVal s)

/-- Numeric value of a dotted-quad IPv4 address per CPython `IPv4Address`:
exactly four octets separated by dots. -/
def ipv4_value (s : Str) : Option Nat :=
  match (splitOnChar '.' s).mapM octet_value with
  | some [a, b, c, d] => some (((a * 256 + b) * 256 + c) * 256 + d)
  | _ => none

/-- One IPv6 hextet per CPython `IPv6Address._parse_hextet`: 1 to 4 hex
digit characters. -/
def parse_hextet (s : Str) : Bool :=
  !s.isEmpty && s.length ≤ 4 && s.all isHexDigitChar

/-- Validity of the colon-separated hextet sequence of an IPv6 address per
CPython `IPv6Address._ip_int_from_string` (after any embedded IPv4 suffix
has been replaced by two hextets): at most 9 parts; without a `::` exactly
8 nonempty hextets; with a `::` (a single empty part, counting a leading or
trailing empty only as part of a leading/trailing `::`) fewer than 8
explicit hextets. -/
def ipv6_hextets_ok (parts : List Str) : Bool :=
  let n := parts.length
  if 9 < n then false
  else
    let mid := (parts.drop 1).dropLast
    let empties := mid.countP (fun p => p.isEmpty)
    if empties = 0 then
      n = 8 && !(parts.headD []).isEmpty && !(parts.getLastD []).isEmpty &&
        parts.all parse_hextet
    else if empties = 1 then
      let skip := 1 + mid.findIdx (fun p => p.isEmpty)
      let headEmpty := (parts.headD []).isEmpty
      let lastEmpty := (parts.getLastD []).isEmpty
      let hi := if headEmpty then skip - 1 else skip
      let lo := if lastEmpty then n - skip - 2 else n - skip - 1
      if headEmpty && hi ≠ 0 then false
      else if lastEmpty && lo ≠ 0 then false
      else if 8 ≤ hi + lo then false
      else (parts.take hi).all parse_hextet &&
        (parts.drop (n - lo)).all parse_hextet
    else false

/-- IPv6 textual syntax without a zone suffix, per CPython `IPv6Address`:
at least 3 colon-separated parts, an optional embedded IPv4 suffix in the
last part (replaced by two hextets for counting), then the hextet rules of
`ipv6_hextets_ok`. -/
def is_ipv6_noscope (s : Str) : Bool :=
  let parts := splitOnChar ':' s
  if parts.length < 3 then false
  else if (parts.getLastD []).contains '.' then
    (ipv4_value (parts.getLastD [])).isSome &&
      ipv6_hextets_ok (parts.dropLast ++ [['0'], ['0']])
  else ipv6_hextets_ok parts

/-- IPv6 textual syntax per CPython `IPv6Address`, allowing a zone suffix
after a percent sign (the suffix must be nonempty and contain no further
percent sign). -/
def is_ipv6 (s : Str) : Bool :=
  match s.span (fun c => c ≠ '%') with
  | (addr, []) => is_ipv6_noscope addr
  | (addr, _ :: scope) =>
    !scope.isEmpty && !scope.contains '%' && is_ipv6_noscope addr

/-- Embedding of `validate_ip_address` from the source: `ipaddress.ip_address` accepts
the string as an IPv4 or an IPv6 address. -/
def validate_ip_address (s : Str) : Bool :=
  (ipv4_value s).isSome || is_ipv6 s

/-- Whether `v` is of the form `1^k 0^(32-k)` as a 32-bit value, per
CPython `_prefix_from_ip_int` (an IPv4 netmask; the all-zeros and all-ones
values both qualify). -/
def isNetmaskInt (v : Nat) : Bool :=
  (List.range 33).any (fun k => v = 2 ^ 32 - 2 ^ (32 - k))

/-- Whether `ipaddress.IPv4Network("0.0.0.0/" + s)` succeeds, the netmask
validation of `parse_csv_file`.  A string containing a slash yields more
than one slash in the joined address and fails; an all-ASCII-digit string
is read as a prefix length 0..32; otherwise the string must parse as a
dotted quad whose value is a netmask (`1*0*`) or a hostmask (`0*1*`).
The network address `0.0.0.0` has no host bits, so the strict host-bits
check of `IPv4Network` always passes. -/
def valid_netmask (s : Str) : Bool :=
  if s.contains '/' then false
  else if !s.isEmpty && s.all isAsciiDigit then decimalVal s ≤ 32
  else
    match ipv4_value s with
    | none => false
    | some v => isNetmaskInt v || isNetmaskInt (4294967295 - v)

example : validate_ip_address ("10.0.0.5".data) = true := by decide
example : validate_ip_address ("10.0.0.256".data) = false := by decide
example : validate_ip_address ("10.0.00.5".data) = false := by decide
example : validate_ip_address ("::ffff:10.0.0.5".data) = true := by decide
example : validate_ip_address ("fe80::1%eth0".data) = true := by decide
example : validate_ip_address ("1:2:3:4:5:6:7:8:9".data) = false := by decide
example : valid_netmask ("255.255.255.0".data) = true := by decide
example : valid_netmask ("24".data) = true := by decide
example : valid_netmask ("33".data) = false := by decide
example : valid_netmask ("0.0.0.255".data) = true := by decide
example : valid_netmask ("255.0.255.0".data) = false := by decide

/-! ### Mapping-file (CSV) parsing -/

/-- A validated mapping entry: the tuple
`(formatted_mac, static_ip, netmask, gateway)` appended to `valid_entries`
by `parse_csv_file`. -/
structure Entry where
  mac : Str
  static_ip : Str
  netmask : Str
  gateway : Str
deriving DecidableEq

/-- The per-row body of the loop in `parse_csv_file`: rows with fewer than
4 fields are skipped, the first four fields are taken, and the row is kept
only if the hardware address formats, both IP fields validate, and the
netmask forms an `IPv4Network` with `0.0.0.0`. -/
def validate_row (row : List Str) : Option Entry :=
  match row with
  | mac :: static_ip :: netmask :: gateway :: _ =>
    match format_mac_address mac with
    | none => none
    | some formatted_mac =>
      if validate_ip_address static_ip && validate_ip_address gateway then
        if valid_netmask netmask then
          some ⟨formatted_mac, static_ip, netmask, gateway⟩
        else none
      else none
  | _ => none

/-- The row loop of `parse_csv_file`: valid rows are appended in file
order, invalid rows are skipped (`continue`). -/
def parse_rows : List (List Str) → List Entry
  | [] => []
  | row :: rest =>
    match validate_row row with
    | some e => e :: parse_rows rest
    | none => parse_rows rest

/-- Embedding of `parse_csv_file` from the source, at the level of already-split CSV
records (the first record is the header).  An empty file makes
`next(reader)` raise `StopIteration`, caught by the surrounding
`except Exception` which calls `sys.exit(1)`; a header with fewer than 4
columns also calls `sys.exit(1)`.  Both fatal exits are `none`. -/
def parse_csv_file (records : List (List Str)) : Option (List Entry) :=
  match records with
  | [] => none
  | header :: rows =>
    if header.length < 4 then none
    else some (parse_rows rows)

/-- Claim-side description of a valid data row: at least four fields
(extra fields ignored), the hardware-address field normalizes, the static
address and gateway are syntactically valid IP addresses, and the netmask
forms a valid IPv4 network with `0.0.0.0`. -/
def rowValid (row : List Str) : Bool :=
  match row with
  | mac :: static_ip :: netmask :: gateway :: _ =>
    (format_mac_address mac).isSome &&
    validate_ip_address static_ip && validate_ip_address gateway &&
    valid_netmask netmask
  | _ => false

/-- The entry built from a valid row: the normalized hardware address and
the three address fields as written. -/
def mkEntry (row : List Str) : Entry :=
  match row with
  | mac :: static_ip :: netmask :: gateway :: _ =>
    ⟨(format_mac_address mac).getD [], static_ip, netmask, gateway⟩
  | _ => ⟨[], [], [], []⟩

/-! ### Lease-file scanning and the retry loop -/

/-- Split a string at runs of whitespace, dropping empty pieces: Python's
`str.split()` with no argument, used on each lease line. -/
def pySplitWs (s : Str) : List Str :=
  (s.foldr
    (fun c acc =>
      if isPyWs c then [] :: acc
      else
        match acc with
        | t :: ts => (c :: t) :: ts
        | [] => [[c]])
    [[]]).filter (fun t => !t.isEmpty)

/-- Whether one lease line matches the queried hardware address: the line
has at least 3 whitespace-delimited fields and its second field equals the
query after lowercasing (`mac_addr.lower() == parts[1].lower()`). -/
def leaseMatches (mac_addr line : Str) : Bool :=
  match pySplitWs line with
  | _ :: p1 :: _ :: _ => lowerL mac_addr == lowerL p1
  | _ => false

/-- The third whitespace-delimited field of a lease line (the assigned
address), when present. -/
def leaseValue (line : Str) : Option Str :=
  (pySplitWs line).get? 2

/-- The scanning loop of `get_dhcp_ip`: lines are inspected in file order;
a line with at least 3 fields whose second field equals the query up to
case returns its third field immediately. -/
def scanLeases (mac_addr : Str) : List Str → Option Str
  | [] => none
  | line :: rest =>
    match pySplitWs line with
    | _ :: p1 :: p2 :: _ =>
      if lowerL mac_addr == lowerL p1 then some p2
      else scanLeases mac_addr rest
    | _ => scanLeases mac_addr rest

/-- Embedding of `get_dhcp_ip` from the source.  The lease file is modelled as
`Option (List Str)`: `none` when `os.path.exists` is false (the function
logs and returns `None`), otherwise the list of its lines. -/
def get_dhcp_ip (mac_addr : Str) (leases_file : Option (List Str)) :
    Option Str :=
  match leases_file with
  | none => none
  | some leases => scanLeases mac_addr leases

/-- The observable outcome of the per-entry retry loop in `main`: the
resolved address (if any), the number of lease-file scans
(`get_dhcp_ip` calls), and the number of `time.sleep(5)` calls (each of
the fixed 5-second retry interval). -/
structure RetryTrace where
  result : Option Str
  scans : Nat
  sleeps : Nat
deriving DecidableEq

/-- The retry loop of `main`:
`attempts = 5; while attempts > 0: ip = get_dhcp_ip(...); if ip: break;
time.sleep(5); attempts -= 1`, parameterized by the initial value of the
`attempts` counter (the source uses 5).  Each iteration scans once; on a
hit the loop breaks before sleeping; on a miss it sleeps 5 seconds and
decrements. -/
def dhcp_retry_loop (mac_addr : Str) (leases_file : Option (List Str)) :
    Nat → RetryTrace
  | 0 => ⟨none, 0, 0⟩
  | n + 1 =>
    match get_dhcp_ip mac_addr leases_file with
    | some ip => ⟨some ip, 1, 0⟩
    | none =>
      let t := dhcp_retry_loop mac_addr leases_file n
      ⟨t.result, t.scans + 1, t.sleeps + 1⟩

example :
    dhcp_retry_loop ("aa:bb:cc:dd:ee:ff".data)
      (some [("00:11:22:33:44:55 AA:BB:CC:DD:EE:FF 192.168.100.42".data)]) 5
    = ⟨some ("192.168.100.42".data), 1, 0⟩ := by decide

example :
    dhcp_retry_loop ("aa:bb:cc:dd:ee:ff".data)
      (some [("00:11:22:33:44:55 11:22:33:44:55:66 192.168.100.9".data)]) 5
    = ⟨none, 5, 5⟩ := by decide

example :
    parse_csv_file
      [["MAC".data, "STATIC_IP".data, "NETMASK".data, "GATEWAY".data],
       ["AA-BB-CC-DD-EE-FF".data, "10.0.0.5".data, "255.255.255.0".data,
        "10.0.0.1".data]]
    = some [⟨"AA:BB:CC:DD:EE:FF".data, "10.0.0.5".data,
        "255.255.255.0".data, "10.0.0.1".data⟩] := by decide

/-! ### Device configuration and the orchestrating `main` loop -/

/-- Result of running a piece of Python code that may raise an exception
which no enclosing handler catches: `ok v` is normal return of `v`, `exn`
is an uncaught exception propagating to the caller. -/
inductive PyResult (α : Type) where
  | ok (val : α)
  | exn
deriving DecidableEq

/-- Oracle for the external world seen by the entry-processing loop:
the lease-file state (`none` when the file does not exist, otherwise its
lines), whether `os.path.exists(script_path)` holds for the configuration
script, whether `os.chmod(script_path, 0o755)` and the `subprocess` launch
complete without raising an `OSError`, and the exit status of the external
script (`true` for exit code 0) as a function of its four positional
arguments. -/
structure World where
  leases_file : Option (List Str)
  scriptExists : Bool
  chmod_ok : Bool
  scriptOk : Str → Str → Str → Str → Bool

/-- Embedding of `configure_ipmi_bash` from the source: a missing script logs an error
and returns `False`; otherwise the script is unconditionally made
executable with `os.chmod(script_path, 0o755)` — an `OSError` raised there
(or while launching the process) is not caught, since the `except` clause
only handles `subprocess.CalledProcessError`, and propagates to the
caller; otherwise the script's exit status decides the returned boolean
(`CalledProcessError` from a nonzero exit is caught and yields
`False`). -/
def configure_ipmi_bash (w : World)
    (dhcp_ip static_ip netmask gateway : Str) : PyResult Bool :=
  if w.scriptExists then
    if w.chmod_ok then
      PyResult.ok (w.scriptOk dhcp_ip static_ip netmask gateway)
    else PyResult.exn
  else PyResult.ok false

/-- Whether one validated entry ends with `success_count` incremented: its
lease resolves within the 5 retry attempts and the configuration call
returns `True`. -/
def entry_succeeds (w : World) (e : Entry) : Bool :=
  match (dhcp_retry_loop e.mac w.leases_file 5).result with
  | some dhcp_ip =>
    match configure_ipmi_bash w dhcp_ip e.static_ip e.netmask e.gateway with
    | PyResult.ok b => b
    | PyResult.exn => false
  | none => false

/-- Observable events of a run of `main`, in order of occurrence. -/
inductive Ev where
  | net_bootstrap
  | pool_start
  | warmup_sleep
  | entry_processed (mac : Str)
  | run_summary (succeeded total : Nat)
  | fatal_exit
deriving DecidableEq

/-- The `for mac, static_ip, netmask, gateway in valid_entries` loop of
`main`: each entry runs the retry loop, then (on a resolved lease) the
configuration call; `success_count` is incremented exactly on
`configure_ipmi_bash(...)` returning `True`; an uncaught exception aborts
the loop.  Returns the per-entry events and the final `success_count` (or
`exn` for an aborted loop). -/
def entries_trace (w : World) : List Entry → List Ev × PyResult Nat
  | [] => ([], PyResult.ok 0)
  | e :: rest =>
    match (dhcp_retry_loop e.mac w.leases_file 5).result with
    | some dhcp_ip =>
      match configure_ipmi_bash w dhcp_ip e.static_ip e.netmask e.gateway with
      | PyResult.exn => ([Ev.entry_processed e.mac], PyResult.exn)
      | PyResult.ok ok =>
        (Ev.entry_processed e.mac :: (entries_trace w rest).1,
          match (entries_trace w rest).2 with
          | PyResult.exn => PyResult.exn
          | PyResult.ok n => PyResult.ok (if ok then n + 1 else n))
    | none =>
      (Ev.entry_processed e.mac :: (entries_trace w rest).1,
        (entries_trace w rest).2)

/-- Oracle for the setup phase of `main`: whether
`setup_eth0_for_dhcp` and `create_dhcp_pool` complete (each calls
`sys.exit(1)` on failure). -/
structure SetupWorld where
  bootstrap_ok : Bool
  pool_ok : Bool

/-- The part of `main` after `setup_environment` and config extraction:
parse the CSV (the argument `valid_entries` is its result), exit fatally
when it is empty, bootstrap the interface, start the DHCP pool, sleep 10
seconds of warm-up, process every entry, and log the final summary.
Returns the event trace and the process exit status (0 for a normal
return from `main`, 1 for `sys.exit(1)` or an uncaught exception). -/
def main_run (sw : SetupWorld) (w : World) (valid_entries : List Entry) :
    List Ev × Nat :=
  if valid_entries.isEmpty then ([Ev.fatal_exit], 1)
  else if !sw.bootstrap_ok then ([Ev.fatal_exit], 1)
  else if !sw.pool_ok then ([Ev.net_bootstrap, Ev.fatal_exit], 1)
  else
    match entries_trace w valid_entries with
    | (evs, PyResult.exn) =>
      ([Ev.net_bootstrap, Ev.pool_start, Ev.warmup_sleep] ++ evs, 1)
    | (evs, PyResult.ok n) =>
      ([Ev.net_bootstrap, Ev.pool_start, Ev.warmup_sleep] ++ evs ++
        [Ev.run_summary n valid_entries.length], 0)

/-! ### Character-level helper lemmas -/

theorem hexChar_cases {c : Char} (h : isHexDigitChar c = true) :
    c = '0' ∨ c = '1' ∨ c = '2' ∨ c = '3' ∨ c = '4' ∨ c = '5' ∨ c = '6' ∨
    c = '7' ∨ c = '8' ∨ c = '9' ∨
    c = 'a' ∨ c = 'b' ∨ c = 'c' ∨ c = 'd' ∨ c = 'e' ∨ c = 'f' ∨
    c = 'A' ∨ c = 'B' ∨ c = 'C' ∨ c = 'D' ∨ c = 'E' ∨ c = 'F' := by
  simpa [isHexDigitChar, or_assoc] using h

theorem hexChar_facts {c : Char} (h : isHexDigitChar c = true) :
    isHexDigitChar (pyUpperChar c) = true ∧
    pyUpperChar (pyUpperChar c) = pyUpperChar c ∧
    isPyWs c = false ∧ isSepChar c = false ∧
    c ≠ '_' ∧ c ≠ '+' ∧ c ≠ '-' ∧ c ≠ 'x' ∧ c ≠ 'X' := by
  rcases hexChar_cases h with
    rfl | rfl | rfl | rfl | rfl | rfl | rfl | rfl | rfl | rfl | rfl | rfl |
    rfl | rfl | rfl | rfl | rfl | rfl | rfl | rfl | rfl | rfl <;> decide

theorem dropWhile_eq_self_of_not {p : Char → Bool} {l : Str}
    (h : ∀ c ∈ l, p c = false) : l.dropWhile p = l := by
  cases l with
  | nil => rfl
  | cons c rest => simp [List.dropWhile_cons, h c (List.mem_cons_self c rest)]

theorem stripWs_eq_self {u : Str} (h : ∀ c ∈ u, isPyWs c = false) :
    stripWs u = u := by
  unfold stripWs
  rw [dropWhile_eq_self_of_not h,
    dropWhile_eq_self_of_not (fun c hc => h c (List.mem_reverse.mp hc)),
    List.reverse_reverse]

theorem hexDigitsTail_of_allHex (u : Str)
    (h : ∀ c ∈ u, isHexDigitChar c = true) : hexDigitsTail u = true := by
  induction u with
  | nil => rfl
  | cons c rest ih =>
    have hc := h c (List.mem_cons_self c rest)
    have hu : ¬(c = '_') := fun e => absurd hc (by subst e; decide)
    rw [hexDigitsTail.eq_def]
    simp [hu, hc, ih (fun d hd => h d (List.mem_cons_of_mem _ hd))]

theorem hexDigits_of_allHex (u : Str) (hne : u ≠ [])
    (h : ∀ c ∈ u, isHexDigitChar c = true) : hexDigits u = true := by
  cases u with
  | nil => exact absurd rfl hne
  | cons c rest =>
    simp [hexDigits, h c (List.mem_cons_self c rest),
      hexDigitsTail_of_allHex rest (fun d hd => h d (List.mem_cons_of_mem _ hd))]

theorem pyIntParseHex_of_allHex (u : Str) (hne : u ≠ [])
    (h : ∀ c ∈ u, isHexDigitChar c = true) : pyIntParseHex u = true := by
  have hws : ∀ c ∈ u, isPyWs c = false :=
    fun c hc => (hexChar_facts (h c hc)).2.2.1
  have hs : stripWs u = u := stripWs_eq_self hws
  cases u with
  | nil => exact absurd rfl hne
  | cons c rest =>
    have hc := h c (List.mem_cons_self c rest)
    have hcp : ¬(c = '+' ∨ c = '-') := by
      rintro (rfl | rfl) <;> exact absurd hc (by decide)
    have hbody : pyIntHexBody (c :: rest) = true := by
      cases rest with
      | nil =>
        simpa [pyIntHexBody] using hexDigits_of_allHex [c] (by simp) h
      | cons c1 rest2 =>
        have hc1 := h c1 (by simp)
        have hpre : ¬(c = '0' ∧ (c1 = 'x' ∨ c1 = 'X')) := by
          rintro ⟨rfl, rfl | rfl⟩ <;> exact absurd hc1 (by decide)
        simpa [pyIntHexBody, hpre] using hexDigits_of_allHex _ (by simp) h
    simp [pyIntParseHex, hs, hcp, hbody]

theorem stripSeparators_colonJoinPairs : ∀ u : Str,
    stripSeparators (colonJoinPairs u) = stripSeparators u
  | [] => rfl
  | [_] => rfl
  | [_, _] => rfl
  | a :: b :: c :: rest => by
    have ih := stripSeparators_colonJoinPairs (c :: rest)
    show stripSeparators (a :: b :: ':' :: colonJoinPairs (c :: rest))
      = stripSeparators (a :: b :: c :: rest)
    simp only [stripSeparators, List.filter_cons] at ih ⊢
    simp only [show (!isSepChar ':') = false by decide]
    simp [ih]

theorem map_pyUpperChar_idem {t : Str}
    (h : ∀ c ∈ t, isHexDigitChar c = true) :
    (t.map pyUpperChar).map pyUpperChar = t.map pyUpperChar := by
  rw [List.map_map]
  exact List.map_congr_left (fun c hc => (hexChar_facts (h c hc)).2.1)

/-- Core normalization lemma: when the string left after separator removal
has exactly 12 hexadecimal characters, `format_mac_address` returns the
uppercased string with colons joined between the six pairs. -/
theorem format_mac_of_strip12hex {s : Str}
    (hlen : (stripSeparators s).length = 12)
    (hhex : ∀ c ∈ stripSeparators s, isHexDigitChar c = true) :
    format_mac_address s
      = some (colonJoinPairs ((stripSeparators s).map pyUpperChar)) := by
  have hu : ∀ c ∈ (stripSeparators s).map pyUpperChar,
      isHexDigitChar c = true := by
    intro c hc
    rcases List.mem_map.mp hc with ⟨d, hd, rfl⟩
    exact (hexChar_facts (hhex d hd)).1
  have hlen2 : ((stripSeparators s).map pyUpperChar).length = 12 := by
    simpa using hlen
  have hne : (stripSeparators s).map pyUpperChar ≠ [] := by
    intro e
    rw [e] at hlen2
    simp at hlen2
  have hparse := pyIntParseHex_of_allHex _ hne hu
  simp [format_mac_address, hlen2, hparse]

/-! ### Claim theorems about hardware-address normalization -/

/-- C5 (code bug): the claim states that every input that is not exactly 12
hexadecimal characters after separator removal is rejected (`None`), and
the source's own comments state the same intent ("Verify all characters
are valid hex"), but the check is performed with `int(mac, 16)`, which
also accepts a leading sign.  The input `+11223344556` keeps its 12
characters after separator removal, only 11 of which are hex digits, yet
`format_mac_address` returns the non-canonical string
`+1:12:23:34:45:56` instead of `None`. -/
theorem c5_nonhex_accepted_bug :
    (stripSeparators ("+11223344556".data)).length = 12 ∧
    (stripSeparators ("+11223344556".data)).all isHexDigitChar = false ∧
    format_mac_address ("+11223344556".data)
      = some ("+1:12:23:34:45:56".data) := by decide

/-- C6: normalization strips the `:`, `-`, `.` and space separators,
uppercases, and on exactly 12 hexadecimal characters produces the
canonical colon-separated uppercase form; and the scenario row
`AA-BB-CC-DD-EE-FF,10.0.0.5,255.255.255.0,10.0.0.1` under header
`MAC,STATIC_IP,NETMASK,GATEWAY` validates to the single entry
`{AA:BB:CC:DD:EE:FF, 10.0.0.5, 255.255.255.0, 10.0.0.1}`. -/
theorem c6_normalization_and_scenario (s : Str)
    (hlen : (stripSeparators s).length = 12)
    (hhex : (stripSeparators s).all isHexDigitChar = true) :
    format_mac_address s
      = some (colonJoinPairs ((stripSeparators s).map pyUpperChar)) ∧
    parse_csv_file
      [["MAC".data, "STATIC_IP".data, "NETMASK".data, "GATEWAY".data],
       ["AA-BB-CC-DD-EE-FF".data, "10.0.0.5".data, "255.255.255.0".data,
        "10.0.0.1".data]]
      = some [⟨"AA:BB:CC:DD:EE:FF".data, "10.0.0.5".data,
          "255.255.255.0".data, "10.0.0.1".data⟩] := by
  refine ⟨format_mac_of_strip12hex hlen ?_, by decide⟩
  intro c hc
  exact List.all_eq_true.mp hhex c hc

theorem c6_witness :
    ((stripSeparators ("AA-BB-CC-DD-EE-FF".data)).length = 12 ∧
      (stripSeparators ("AA-BB-CC-DD-EE-FF".data)).all isHexDigitChar
        = true) ∧
    (format_mac_address ("AA-BB-CC-DD-EE-FF".data)
        = some (colonJoinPairs
            ((stripSeparators ("AA-BB-CC-DD-EE-FF".data)).map pyUpperChar)) ∧
      parse_csv_file
        [["MAC".data, "STATIC_IP".data, "NETMASK".data, "GATEWAY".data],
         ["AA-BB-CC-DD-EE-FF".data, "10.0.0.5".data, "255.255.255.0".data,
          "10.0.0.1".data]]
        = some [⟨"AA:BB:CC:DD:EE:FF".data, "10.0.0.5".data,
            "255.255.255.0".data, "10.0.0.1".data⟩]) :=
  ⟨by decide, c6_normalization_and_scenario _ (by decide) (by decide)⟩

/-- C9: on every input with exactly 12 hexadecimal characters after
separator removal, normalization succeeds and is idempotent: it returns a
canonical form `m` with `format_mac_address m = some m`. -/
theorem c9_normalization_idempotent (s : Str)
    (hlen : (stripSeparators s).length = 12)
    (hhex : (stripSeparators s).all isHexDigitChar = true) :
    ∃ m, format_mac_address s = some m ∧ format_mac_address m = some m := by
  have hhex' : ∀ c ∈ stripSeparators s, isHexDigitChar c = true :=
    fun c hc => List.all_eq_true.mp hhex c hc
  have huhex : ∀ c ∈ (stripSeparators s).map pyUpperChar,
      isHexDigitChar c = true := by
    intro c hc
    rcases List.mem_map.mp hc with ⟨d, hd, rfl⟩
    exact (hexChar_facts (hhex' d hd)).1
  refine ⟨colonJoinPairs ((stripSeparators s).map pyUpperChar),
    format_mac_of_strip12hex hlen hhex', ?_⟩
  have h1 : stripSeparators
      (colonJoinPairs ((stripSeparators s).map pyUpperChar))
      = (stripSeparators s).map pyUpperChar := by
    rw [stripSeparators_colonJoinPairs]
    refine List.filter_eq_self.mpr ?_
    intro c hc
    simpa using (hexChar_facts (huhex c hc)).2.2.2.1
  have h2 : (stripSeparators
      (colonJoinPairs ((stripSeparators s).map pyUpperChar))).map pyUpperChar
      = (stripSeparators s).map pyUpperChar := by
    rw [h1]
    exact map_pyUpperChar_idem hhex'
  have hulen : ((stripSeparators s).map pyUpperChar).length = 12 := by
    simpa using hlen
  have hune : (stripSeparators s).map pyUpperChar ≠ [] := by
    intro e
    rw [e] at hulen
    simp at hulen
  have hup := pyIntParseHex_of_allHex _ hune huhex
  simp [format_mac_address, h2, hulen, hup]

theorem c9_witness :
    ((stripSeparators ("aa:bb.cc-dd ee:ff".data)).length = 12 ∧
      (stripSeparators ("aa:bb.cc-dd ee:ff".data)).all isHexDigitChar
        = true) ∧
    ∃ m, format_mac_address ("aa:bb.cc-dd ee:ff".data) = some m ∧
      format_mac_address m = some m :=
  ⟨by decide, c9_normalization_idempotent _ (by decide) (by decide)⟩

/-! ### Claim theorems about mapping-file parsing -/

theorem validate_row_eq (row : List Str) :
    validate_row row = if rowValid row then some (mkEntry row) else none := by
  match row with
  | [] => rfl
  | [_] => rfl
  | [_, _] => rfl
  | [_, _, _] => rfl
  | r0 :: r1 :: r2 :: r3 :: rest =>
    cases hm : format_mac_address r0 with
    | none => simp [validate_row, rowValid, hm]
    | some fm =>
      cases h1 : validate_ip_address r1 <;>
      cases h3 : validate_ip_address r3 <;>
      cases hn : valid_netmask r2 <;>
        simp [validate_row, rowValid, mkEntry, hm, h1, h3, hn]

theorem parse_rows_eq (rows : List (List Str)) :
    parse_rows rows = (rows.filter rowValid).map mkEntry := by
  induction rows with
  | nil => rfl
  | cons row rest ih =>
    cases hrv : rowValid row <;>
      simp [parse_rows, validate_row_eq row, hrv, List.filter_cons, ih]

/-- C3: for a valid header (at least 4 columns), parsing succeeds and
returns exactly the rows whose four fields all validate, in original file
order, as a sequence of length at most the number of data rows; rows with
fewer than 4 fields or failing any validation are skipped without
aborting. -/
theorem c3_parse_csv_filters (header : List Str) (rows : List (List Str))
    (hheader : 4 ≤ header.length) :
    parse_csv_file (header :: rows)
      = some ((rows.filter rowValid).map mkEntry) ∧
    ((rows.filter rowValid).map mkEntry).length ≤ rows.length := by
  constructor
  · have hlt : ¬(header.length < 4) := by omega
    simp [parse_csv_file, hlt, parse_rows_eq]
  · rw [List.length_map]
    exact List.length_filter_le _ _

/-- Sample mapping records for the `c3_witness` instantiation: one fully
valid row, one row with an 11-hex-digit hardware address, one row with an
invalid netmask, and one row with fewer than 4 fields. -/
def sampleHeader : List Str :=
  ["MAC".data, "STATIC_IP".data, "NETMASK".data, "GATEWAY".data]

def sampleRows : List (List Str) :=
  [["AA-BB-CC-DD-EE-FF".data, "10.0.0.5".data, "255.255.255.0".data,
    "10.0.0.1".data],
   ["12:34:56:78:9A".data, "10.0.0.6".data, "255.255.255.0".data,
    "10.0.0.1".data],
   ["00:11:22:33:44:55".data, "10.0.0.7".data, "255.0.255.0".data,
    "10.0.0.1".data],
   ["only".data, "two".data]]

theorem c3_witness :
    4 ≤ sampleHeader.length ∧
    (parse_csv_file (sampleHeader :: sampleRows)
        = some ((sampleRows.filter rowValid).map mkEntry) ∧
      ((sampleRows.filter rowValid).map mkEntry).length
        ≤ sampleRows.length) :=
  ⟨by decide, c3_parse_csv_filters sampleHeader sampleRows (by decide)⟩

/-! ### Claim theorems about lease resolution -/

/-- The scan returns the third field of the first matching line, in file
order. -/
theorem scanLeases_eq_find (mac_addr : Str) (lines : List Str) :
    scanLeases mac_addr lines
      = (lines.find? (fun l => leaseMatches mac_addr l)).bind leaseValue := by
  induction lines with
  | nil => rfl
  | cons line rest ih =>
    cases hp : pySplitWs line with
    | nil =>
      have hm : leaseMatches mac_addr line = false := by
        simp [leaseMatches, hp]
      have hfind : List.find? (fun l => leaseMatches mac_addr l) (line :: rest)
          = List.find? (fun l => leaseMatches mac_addr l) rest :=
        List.find?_cons_of_neg _ (by simp [hm])
      simp [scanLeases, hp, hfind, ih]
    | cons p0 ps =>
      cases ps with
      | nil =>
        have hm : leaseMatches mac_addr line = false := by
          simp [leaseMatches, hp]
        have hfind : List.find? (fun l => leaseMatches mac_addr l)
            (line :: rest) = List.find? (fun l => leaseMatches mac_addr l) rest :=
          List.find?_cons_of_neg _ (by simp [hm])
        simp [scanLeases, hp, hfind, ih]
      | cons p1 ps2 =>
        cases ps2 with
        | nil =>
          have hm : leaseMatches mac_addr line = false := by
            simp [leaseMatches, hp]
          have hfind : List.find? (fun l => leaseMatches mac_addr l)
              (line :: rest)
              = List.find? (fun l => leaseMatches mac_addr l) rest :=
            List.find?_cons_of_neg _ (by simp [hm])
          simp [scanLeases, hp, hfind, ih]
        | cons p2 ps3 =>
          have hm : leaseMatches mac_addr line
              = (lowerL mac_addr == lowerL p1) := by
            simp [leaseMatches, hp]
          cases heq : (lowerL mac_addr == lowerL p1) with
          | false =>
            have hfind : List.find? (fun l => leaseMatches mac_addr l)
                (line :: rest)
                = List.find? (fun l => leaseMatches mac_addr l) rest :=
              List.find?_cons_of_neg _ (by simp [hm, heq])
            simp [scanLeases, hp, heq, hfind, ih]
          | true =>
            have hfind : List.find? (fun l => leaseMatches mac_addr l)
                (line :: rest) = some line :=
              List.find?_cons_of_pos _ (by simp [hm, heq])
            have hlv : leaseValue line = some p2 := by
              rw [leaseValue, hp]
              rfl
            simp [scanLeases, hp, heq, hfind, hlv]

theorem scanLeases_eq_none_of_noMatch (mac_addr : Str) {lines : List Str}
    (h : ∀ l ∈ lines, leaseMatches mac_addr l = false) :
    scanLeases mac_addr lines = none := by
  rw [scanLeases_eq_find]
  have hf : lines.find? (fun l => leaseMatches mac_addr l) = none :=
    List.find?_eq_none.mpr (fun l hl => by simp [h l hl])
  simp [hf]

/-- C4: a scan inspects records in file order; a record is well-formed
when it has at least 3 whitespace-delimited fields; the queried address is
matched against field 2 case-insensitively and field 3 of the first
matching record is returned (stated as the first-match characterization
through `List.find?`); a match found by the first scan returns after 1
scan and 0 sleeps; and the concrete lease line
`00:11:22:33:44:55 AA:BB:CC:DD:EE:FF 192.168.100.42` resolves query
`aa:bb:cc:dd:ee:ff` to `192.168.100.42` that way. -/
theorem c4_first_match_resolution (mac_addr : Str) :
    (∀ lines, scanLeases mac_addr lines
        = (lines.find? (fun l => leaseMatches mac_addr l)).bind leaseValue) ∧
    (∀ leases_file ip n, get_dhcp_ip mac_addr leases_file = some ip →
        dhcp_retry_loop mac_addr leases_file (n + 1) = ⟨some ip, 1, 0⟩) ∧
    dhcp_retry_loop ("aa:bb:cc:dd:ee:ff".data)
        (some [("00:11:22:33:44:55 AA:BB:CC:DD:EE:FF 192.168.100.42".data)])
        5
      = ⟨some ("192.168.100.42".data), 1, 0⟩ := by
  refine ⟨scanLeases_eq_find mac_addr, ?_, by decide⟩
  intro leases_file ip n h
  simp [dhcp_retry_loop, h]

theorem c4_witness :
    get_dhcp_ip ("aa:bb:cc:dd:ee:ff".data)
        (some [("00:11:22:33:44:55 AA:BB:CC:DD:EE:FF 192.168.100.42".data)])
      = some ("192.168.100.42".data) ∧
    dhcp_retry_loop ("aa:bb:cc:dd:ee:ff".data)
        (some [("00:11:22:33:44:55 AA:BB:CC:DD:EE:FF 192.168.100.42".data)])
        (4 + 1)
      = ⟨some ("192.168.100.42".data), 1, 0⟩ :=
  ⟨by decide,
    (c4_first_match_resolution ("aa:bb:cc:dd:ee:ff".data)).2.1 _ _ 4
      (by decide)⟩

/-- C1 counterexample: with the source's 5 attempts and a lease file with
no matching record, the loop performs 5 scans and 5 sleeps — not the
5 − 1 = 4 sleeps the claim states (the loop sleeps after every failed
scan, including the final one). -/
theorem c1_counterexample :
    dhcp_retry_loop ("aa:bb:cc:dd:ee:ff".data)
        (some [("00:11:22:33:44:55 11:22:33:44:55:66 192.168.100.9".data)])
        5
      = ⟨none, 5, 5⟩ ∧
    (dhcp_retry_loop ("aa:bb:cc:dd:ee:ff".data)
        (some [("00:11:22:33:44:55 11:22:33:44:55:66 192.168.100.9".data)])
        5).sleeps ≠ 5 - 1 := by decide

/-- C1 (amended): with a lease file containing no matching record, the
retry loop with initial counter `n` (the source uses 5) performs exactly
`n` scans and exactly `n` sleeps of the fixed 5-second interval — one
after every unsuccessful scan, including the final one — and returns
`none` (NotFound). -/
theorem c1_retry_exhaustion (mac_addr : Str) (lines : List Str) (n : Nat)
    (h : ∀ l ∈ lines, leaseMatches mac_addr l = false) :
    dhcp_retry_loop mac_addr (some lines) n = ⟨none, n, n⟩ := by
  induction n with
  | zero => rfl
  | succ k ih =>
    have hg : get_dhcp_ip mac_addr (some lines) = none := by
      simp [get_dhcp_ip, scanLeases_eq_none_of_noMatch mac_addr h]
    simp [dhcp_retry_loop, hg, ih]

theorem c1_witness :
    (∀ l ∈ [("00:11:22:33:44:55 11:22:33:44:55:66 192.168.100.9".data)],
        leaseMatches ("aa:bb:cc:dd:ee:ff".data) l = false) ∧
    dhcp_retry_loop ("aa:bb:cc:dd:ee:ff".data)
        (some [("00:11:22:33:44:55 11:22:33:44:55:66 192.168.100.9".data)])
        5
      = ⟨none, 5, 5⟩ :=
  ⟨by decide, c1_retry_exhaustion _ _ 5 (by decide)⟩

theorem leaseValue_of_matches {mac_addr l : Str}
    (h : leaseMatches mac_addr l = true) : ∃ v, leaseValue l = some v := by
  unfold leaseMatches at h
  cases hp : pySplitWs l with
  | nil => rw [hp] at h; simp at h
  | cons p0 ps =>
    cases ps with
    | nil => rw [hp] at h; simp at h
    | cons p1 ps2 =>
      cases ps2 with
      | nil => rw [hp] at h; simp at h
      | cons p2 ps3 => exact ⟨p2, by simp [leaseValue, hp]⟩

/-- C10: lease matching is purely textual — a scan finds nothing exactly
when no line has a second field equal to the query up to ASCII case (no
normalization is applied to the lease-file field) — and hence records
denoting the same six octets in dash, dot, or separator-free format never
match the canonical colon-separated query: resolution returns NotFound. -/
theorem c10_textual_match (mac_addr : Str) :
    (∀ lines, scanLeases mac_addr lines = none ↔
        ∀ l ∈ lines, leaseMatches mac_addr l = false) ∧
    (dhcp_retry_loop ("AA:BB:CC:DD:EE:FF".data)
        (some [("1700000000 AA-BB-CC-DD-EE-FF 192.168.100.42".data),
               ("1700000001 AABBCCDDEEFF 192.168.100.43".data),
               ("1700000002 AA.BB.CC.DD.EE.FF 192.168.100.44".data)])
        5).result
      = none := by
  constructor
  · intro lines
    constructor
    · intro hnone l hl
      cases hb : leaseMatches mac_addr l with
      | false => rfl
      | true =>
        exfalso
        rw [scanLeases_eq_find] at hnone
        cases hf : lines.find? (fun l => leaseMatches mac_addr l) with
        | none =>
          have hnm := List.find?_eq_none.mp hf l hl
          simp [hb] at hnm
        | some l0 =>
          have hm0 : leaseMatches mac_addr l0 = true := by
            simpa using List.find?_some hf
          rcases leaseValue_of_matches hm0 with ⟨v, hv⟩
          rw [hf] at hnone
          simp [hv] at hnone
    · exact scanLeases_eq_none_of_noMatch mac_addr
  · decide

theorem c10_witness :
    scanLeases ("AA:BB:CC:DD:EE:FF".data)
        [("1700000000 AA-BB-CC-DD-EE-FF 192.168.100.42".data)] = none :=
  ((c10_textual_match ("AA:BB:CC:DD:EE:FF".data)).1 _).mpr (by decide)

/-! ### Claim theorems about the orchestrating run -/

theorem entries_trace_cons_none {w : World} {e : Entry} {rest : List Entry}
    (hr : (dhcp_retry_loop e.mac w.leases_file 5).result = none) :
    entries_trace w (e :: rest)
      = (Ev.entry_processed e.mac :: (entries_trace w rest).1,
         (entries_trace w rest).2) := by
  rw [entries_trace.eq_def]
  simp [hr]

theorem entries_trace_cons_ok {w : World} {e : Entry} {rest : List Entry}
    {ip : Str} {b : Bool}
    (hr : (dhcp_retry_loop e.mac w.leases_file 5).result = some ip)
    (hc : configure_ipmi_bash w ip e.static_ip e.netmask e.gateway
      = PyResult.ok b) :
    entries_trace w (e :: rest)
      = (Ev.entry_processed e.mac :: (entries_trace w rest).1,
         match (entries_trace w rest).2 with
         | PyResult.exn => PyResult.exn
         | PyResult.ok n => PyResult.ok (if b then n + 1 else n)) := by
  rw [entries_trace.eq_def]
  simp [hr, hc]

theorem entries_trace_cons_exn {w : World} {e : Entry} {rest : List Entry}
    {ip : Str}
    (hr : (dhcp_retry_loop e.mac w.leases_file 5).result = some ip)
    (hc : configure_ipmi_bash w ip e.static_ip e.netmask e.gateway
      = PyResult.exn) :
    entries_trace w (e :: rest)
      = ([Ev.entry_processed e.mac], PyResult.exn) := by
  rw [entries_trace.eq_def]
  simp [hr, hc]

/-- With the chmod/launch oracle succeeding, `configure_ipmi_bash` never
raises: it returns the script's status, or `False` for a missing
script. -/
theorem configure_ipmi_bash_ok {w : World} (hch : w.chmod_ok = true)
    (dhcp_ip static_ip netmask gateway : Str) :
    configure_ipmi_bash w dhcp_ip static_ip netmask gateway
      = PyResult.ok (if w.scriptExists then
          w.scriptOk dhcp_ip static_ip netmask gateway else false) := by
  cases hse : w.scriptExists <;> simp [configure_ipmi_bash, hse, hch]

/-- With the chmod/launch oracle succeeding, the entry loop processes
every entry in order and counts exactly the succeeding ones. -/
theorem entries_trace_no_crash {w : World} (hch : w.chmod_ok = true) :
    ∀ es : List Entry,
      entries_trace w es
        = (es.map (fun e => Ev.entry_processed e.mac),
           PyResult.ok (es.countP (fun e => entry_succeeds w e))) := by
  intro es
  induction es with
  | nil => rfl
  | cons e rest ih =>
    cases hr : (dhcp_retry_loop e.mac w.leases_file 5).result with
    | none =>
      have hsucc : entry_succeeds w e = false := by
        simp [entry_succeeds, hr]
      simp [entries_trace_cons_none hr, ih, List.countP_cons, hsucc]
    | some ip =>
      have hc := configure_ipmi_bash_ok hch ip e.static_ip e.netmask e.gateway
      have hsucc : entry_succeeds w e
          = (if w.scriptExists then
              w.scriptOk ip e.static_ip e.netmask e.gateway else false) := by
        simp [entry_succeeds, hr, hc]
      cases hb : (if w.scriptExists then
          w.scriptOk ip e.static_ip e.netmask e.gateway else false) <;>
        simp [entries_trace_cons_ok hr hc, hb, ih, List.countP_cons, hsucc]

theorem entries_trace_ok_le {w : World} :
    ∀ (es : List Entry) (n : Nat),
      (entries_trace w es).2 = PyResult.ok n → n ≤ es.length := by
  intro es
  induction es with
  | nil =>
    intro n h
    simp [entries_trace] at h
    omega
  | cons e rest ih =>
    intro n h
    cases hr : (dhcp_retry_loop e.mac w.leases_file 5).result with
    | none =>
      rw [entries_trace_cons_none hr] at h
      have := ih n h
      simp
      omega
    | some ip =>
      cases hc : configure_ipmi_bash w ip e.static_ip e.netmask e.gateway with
      | exn =>
        rw [entries_trace_cons_exn hr hc] at h
        simp at h
      | ok b =>
        rw [entries_trace_cons_ok hr hc] at h
        cases hrest : (entries_trace w rest).2 with
        | exn => rw [hrest] at h; simp at h
        | ok m =>
          rw [hrest] at h
          have hm := ih m hrest
          simp at h
          cases b with
          | true => simp at h; simp; omega
          | false => simp at h; simp; omega

theorem entries_trace_events {w : World} :
    ∀ es : List Entry, ∀ ev ∈ (entries_trace w es).1,
      ∃ m, ev = Ev.entry_processed m := by
  intro es
  induction es with
  | nil =>
    intro ev hev
    simp [entries_trace] at hev
  | cons e rest ih =>
    intro ev hev
    cases hr : (dhcp_retry_loop e.mac w.leases_file 5).result with
    | none =>
      rw [entries_trace_cons_none hr] at hev
      rcases List.mem_cons.mp hev with rfl | hev2
      · exact ⟨e.mac, rfl⟩
      · exact ih ev hev2
    | some ip =>
      cases hc : configure_ipmi_bash w ip e.static_ip e.netmask e.gateway with
      | exn =>
        rw [entries_trace_cons_exn hr hc] at hev
        simp at hev
        exact ⟨e.mac, hev⟩
      | ok b =>
        rw [entries_trace_cons_ok hr hc] at hev
        rcases List.mem_cons.mp hev with rfl | hev2
        · exact ⟨e.mac, rfl⟩
        · exact ih ev hev2

/-- C2: for every run that reaches entry processing (a nonempty validated
entry list and successful setup) in which every per-entry outcome is a
success or one of the two recoverable failures (no lease resolved after
the retries, or the configuration action returning nonzero — the
chmod/launch oracle raising no exception), the loop processes every entry
in order, a failure only leaves the success counter unincremented, and
after the last entry the run emits the summary and exits with status 0
even when some or all entries failed. -/
theorem c2_partial_failure_no_abort (sw : SetupWorld) (w : World)
    (es : List Entry) (hne : es ≠ [])
    (hb : sw.bootstrap_ok = true) (hp : sw.pool_ok = true)
    (hch : w.chmod_ok = true) :
    main_run sw w es
      = ([Ev.net_bootstrap, Ev.pool_start, Ev.warmup_sleep] ++
          es.map (fun e => Ev.entry_processed e.mac) ++
          [Ev.run_summary (es.countP (fun e => entry_succeeds w e))
            es.length],
         0) := by
  have hisE : es.isEmpty = false := by
    cases es with
    | nil => exact absurd rfl hne
    | cons a l => rfl
  simp [main_run, hisE, hb, hp, entries_trace_no_crash hch es]

/-- A world for the C2 witness: the lease file holds a lease for one of
the two entries only, and the external script always exits 0; entry
`C2:00:00:00:00:02` fails to resolve, yet the run exits 0. -/
def c2World : World :=
  ⟨some [("1700000000 c2:00:00:00:00:01 192.168.100.50".data)],
   true, true, fun _ _ _ _ => true⟩

def c2Entries : List Entry :=
  [⟨"C2:00:00:00:00:01".data, "10.0.0.21".data, "255.255.255.0".data,
    "10.0.0.1".data⟩,
   ⟨"C2:00:00:00:00:02".data, "10.0.0.22".data, "255.255.255.0".data,
    "10.0.0.1".data⟩]

theorem c2_witness :
    (c2Entries ≠ [] ∧ (true : Bool) = true ∧ (true : Bool) = true ∧
      c2World.chmod_ok = true) ∧
    main_run ⟨true, true⟩ c2World c2Entries
      = ([Ev.net_bootstrap, Ev.pool_start, Ev.warmup_sleep] ++
          c2Entries.map (fun e => Ev.entry_processed e.mac) ++
          [Ev.run_summary
            (c2Entries.countP (fun e => entry_succeeds c2World e))
            c2Entries.length],
         0) :=
  ⟨by refine ⟨by decide, rfl, rfl, rfl⟩,
   c2_partial_failure_no_abort ⟨true, true⟩ c2World c2Entries
     (by decide) rfl rfl rfl⟩

/-- C7 counterexample: with the configuration script present but the
`os.chmod` call failing, the failure is not reported as a per-device
error (a returned `False`): it escapes `configure_ipmi_bash` as an
uncaught exception, which aborts the run. -/
def crashWorld : World :=
  ⟨some [], true, false, fun _ _ _ _ => true⟩

theorem c7_counterexample :
    configure_ipmi_bash crashWorld ("192.168.100.50".data)
        ("10.0.0.21".data) ("255.255.255.0".data) ("10.0.0.1".data)
      = PyResult.exn ∧
    ∀ b : Bool,
      configure_ipmi_bash crashWorld ("192.168.100.50".data)
          ("10.0.0.21".data) ("255.255.255.0".data) ("10.0.0.1".data)
        ≠ PyResult.ok b :=
  ⟨rfl, fun _ h => PyResult.noConfusion h⟩

/-- C7 (amended): before invoking the external action the code
unconditionally sets the script's permissions to `0o755` (which corrects a
missing executable bit when the chmod is permitted); a missing script is
reported as a per-device failure (`False`), but a failing chmod raises an
error that is not caught and aborts the run instead of being reported as a
per-device failure. -/
theorem c7_chmod_behavior (w : World)
    (dhcp_ip static_ip netmask gateway : Str) :
    (w.scriptExists = false →
      configure_ipmi_bash w dhcp_ip static_ip netmask gateway
        = PyResult.ok false) ∧
    (w.scriptExists = true → w.chmod_ok = true →
      configure_ipmi_bash w dhcp_ip static_ip netmask gateway
        = PyResult.ok (w.scriptOk dhcp_ip static_ip netmask gateway)) ∧
    (w.scriptExists = true → w.chmod_ok = false →
      configure_ipmi_bash w dhcp_ip static_ip netmask gateway
        = PyResult.exn) := by
  refine ⟨fun h1 => ?_, fun h1 h2 => ?_, fun h1 h2 => ?_⟩ <;>
    simp [configure_ipmi_bash, h1]
  · simp [h2]
  · simp [h2]

theorem c7_witness :
    (crashWorld.scriptExists = true ∧ crashWorld.chmod_ok = false) ∧
    configure_ipmi_bash crashWorld ("192.168.100.50".data)
        ("10.0.0.21".data) ("255.255.255.0".data) ("10.0.0.1".data)
      = PyResult.exn :=
  ⟨⟨rfl, rfl⟩,
   (c7_chmod_behavior crashWorld ("192.168.100.50".data)
       ("10.0.0.21".data) ("255.255.255.0".data) ("10.0.0.1".data)).2.2
     rfl rfl⟩

/-- C8: in every run, an emitted summary satisfies
`succeeded ≤ total` (the counter is incremented at most once per
entry), and a run whose validated-entry list is empty never reaches entry
processing: it exits fatally with status 1 with no network-bootstrap and
no pool-start event. -/
theorem c8_summary_invariant (sw : SetupWorld) (w : World)
    (es : List Entry) :
    (∀ s t, Ev.run_summary s t ∈ (main_run sw w es).1 → s ≤ t) ∧
    (es = [] →
      main_run sw w es = ([Ev.fatal_exit], 1) ∧
      Ev.net_bootstrap ∉ (main_run sw w es).1 ∧
      Ev.pool_start ∉ (main_run sw w es).1 ∧
      (main_run sw w es).2 ≠ 0) := by
  constructor
  · intro s t hmem
    cases hisE : es.isEmpty with
    | true => simp [main_run, hisE] at hmem
    | false =>
      cases hb : sw.bootstrap_ok with
      | false => simp [main_run, hisE, hb] at hmem
      | true =>
        cases hp : sw.pool_ok with
        | false => simp [main_run, hisE, hb, hp] at hmem
        | true =>
          cases htr : entries_trace w es with
          | mk evs r =>
            cases r with
            | exn =>
              simp [main_run, hisE, hb, hp, htr] at hmem
              obtain ⟨m, hm⟩ := entries_trace_events es _
                (by rw [htr]; exact hmem)
              simp at hm
            | ok n =>
              simp [main_run, hisE, hb, hp, htr] at hmem
              rcases hmem with hmem | ⟨rfl, rfl⟩
              · obtain ⟨m, hm⟩ := entries_trace_events es _
                  (by rw [htr]; exact hmem)
                simp at hm
              · exact entries_trace_ok_le es s (by rw [htr])
  · intro he
    subst he
    have h0 : main_run sw w [] = ([Ev.fatal_exit], 1) := rfl
    refine ⟨h0, ?_, ?_, ?_⟩ <;> rw [h0] <;> simp

/-- A world for the C8 witness: a single entry whose lease never resolves,
so the summary reads 0 of 1. -/
def c8World : World :=
  ⟨some [], true, true, fun _ _ _ _ => false⟩

def c8Entry : Entry :=
  ⟨"C8:00:00:00:00:01".data, "10.0.0.31".data, "255.255.255.0".data,
   "10.0.0.1".data⟩

theorem c8_witness :
    (Ev.run_summary 0 1 ∈ (main_run ⟨true, true⟩ c8World [c8Entry]).1 ∧
      0 ≤ 1) ∧
    (([] : List Entry) = [] ∧
      (main_run ⟨true, true⟩ c8World [] = ([Ev.fatal_exit], 1) ∧
        Ev.net_bootstrap ∉ (main_run ⟨true, true⟩ c8World []).1 ∧
        Ev.pool_start ∉ (main_run ⟨true, true⟩ c8World []).1 ∧
        (main_run ⟨true, true⟩ c8World []).2 ≠ 0)) :=
  ⟨⟨by decide,
    (c8_summary_invariant ⟨true, true⟩ c8World [c8Entry]).1 0 1 (by decide)⟩,
   ⟨rfl, (c8_summary_invariant ⟨true, true⟩ c8World []).2 rfl⟩⟩

end IPMIrage
